import Mathlib

/-!
# Verification of protoc-gen-grpc-go-service (`src/main.go`)

A shallow embedding of the plugin's core pipeline:
`parseRequest` (descriptor model builder), the template `tmpl`
(shape classifier + stub renderer), and `generateResponse`
(file emitter), together with an operational semantics of the
per-shape Go method bodies the template emits.

Strings are Lean `String`s; Go byte strings in this program are
ASCII, so `String` operations coincide with Go's byte operations
on the inputs that matter.
-/

namespace GrpcGoService

/-- Embeds Go `strings.TrimPrefix(s, pre)` (`src/main.go` lines 122-127
use it with `pre = "."`): if `pre` is a prefix of `s`, drop it,
otherwise return `s` unchanged. -/
def trimPrefix (s pre : String) : String :=
  if pre.data.isPrefixOf s.data then ⟨s.data.drop pre.data.length⟩ else s

/-- Embeds Go `strings.ToLower` (`src/main.go` line 84).  The names fed
to it here are ASCII identifiers, for which Go's Unicode lowering is
the per-character ASCII lowering. -/
def toLower (s : String) : String :=
  ⟨s.data.map Char.toLower⟩

/-- Embeds `descriptor.MethodDescriptorProto`, restricted to the fields
`src/main.go` reads: `GetName`, `GetInputType`, `GetOutputType`,
`GetClientStreaming`, `GetServerStreaming`.  Absent optional flags
decode to `false`, which the getter semantics already bakes in. -/
structure MethodDescriptorProto where
  name : String
  inputType : String
  outputType : String
  clientStreaming : Bool
  serverStreaming : Bool
  deriving Repr, DecidableEq

/-- Embeds `descriptor.ServiceDescriptorProto`, restricted to the fields
read by `src/main.go`: `GetName` and `GetMethod`. -/
structure ServiceDescriptorProto where
  name : String
  method : List MethodDescriptorProto
  deriving Repr, DecidableEq

/-- Embeds the per-file part of the request read by `parseRequest`:
`GetName`, `GetPackage`, `GetService`. -/
structure FileDescriptorProto where
  name : String
  package : String
  service : List ServiceDescriptorProto
  deriving Repr, DecidableEq

/-- Embeds `plugin.CodeGeneratorRequest`, restricted to `GetProtoFile`. -/
structure CodeGeneratorRequest where
  protoFile : List FileDescriptorProto
  deriving Repr, DecidableEq

/-- Embeds the `method` struct of `src/main.go` (lines 116-119): the
method descriptor plus the owning service's name. -/
structure method where
  mtd : MethodDescriptorProto
  serviceName : String
  deriving Repr, DecidableEq

/-- Embeds `params` of `src/main.go` (lines 107-114): the service
descriptor plus the proto file's name and package and the wrapped
method list.  (The `fileName` field of the Go struct is never
assigned or read, so it is omitted.) -/
structure params where
  svc : ServiceDescriptorProto
  ProtoName : String
  PackageName : String
  Methods : List method
  deriving Repr, DecidableEq

/-- Embeds `method.TrimmedInput` (`src/main.go` lines 122-124). -/
def method.TrimmedInput (m : method) : String :=
  trimPrefix m.mtd.inputType "."

/-- Embeds `method.TrimmedOutput` (`src/main.go` lines 125-127). -/
def method.TrimmedOutput (m : method) : String :=
  trimPrefix m.mtd.outputType "."

/-- Embeds `method.StreamName` (`src/main.go` lines 128-130):
`fmt.Sprintf("%s_%sServer", m.serviceName, m.GetName())`. -/
def method.StreamName (m : method) : String :=
  m.serviceName ++ "_" ++ m.mtd.name ++ "Server"

/-- The four RPC interaction shapes distinguished by the template's
nested `{{ if .GetClientStreaming }}` / `{{ if .GetServerStreaming }}`
dispatch (`src/main.go` lines 146-217). -/
inductive RPCShape where
  | Unary
  | ServerStreaming
  | ClientStreaming
  | BidiStreaming
  deriving Repr, DecidableEq

/-- The shape classification implicit in the template's nested
conditionals (`src/main.go` lines 147-148, 171, 191-192, 207):
outer branch on `clientStreaming`, inner branch on `serverStreaming`. -/
def classify (clientStreaming serverStreaming : Bool) : RPCShape :=
  if clientStreaming then
    if serverStreaming then .BidiStreaming else .ClientStreaming
  else
    if serverStreaming then .ServerStreaming else .Unary

/-! ## The template `tmpl` (`src/main.go` lines 132-220)

Go `text/template` semantics: literal text between actions is emitted
verbatim (including the newlines and tabs that surround `{{ if }}` /
`{{ range }}` actions, since the template uses no trim markers), each
`{{ range .Methods }}` iteration emits the range body once per method,
and `{{ if }}` emits exactly one branch.  Literal braces of the emitted
Go code are written `\x7b` / `\x7d` below. -/

/-- The fixed template text from the opening backtick up to
`// source: ` (`src/main.go` lines 132-134). -/
def preludeHead : String :=
  "\n// Code initially generated by protoc-gen-grpc-goservice\n// source: "

/-- The fixed template text after `{{.ProtoName}}` down to the blank
line that precedes `{{ range .Methods }}` (`src/main.go` lines 134-145):
package clause, imports, and the empty `service` struct. -/
def preludeTail : String :=
  "\n\npackage main\n\nimport (\n\t\"io\"\n\n\t\"golang.org/x/net/context\"\n)\n\ntype service struct\x7b\x7d\n\n"

/-- The part of the template before the `{{ range .Methods }}` loop,
with `{{.ProtoName}}` interpolated (`src/main.go` lines 132-145). -/
def renderPrelude (protoName : String) : String :=
  preludeHead ++ protoName ++ preludeTail

/-- The `{{ if .GetServerStreaming }}` branch of the client-streaming
arm: the bidirectional-streaming stub (`src/main.go` lines 148-171),
from the newline after the `if` action to the `\t\t` before `{{ else }}`. -/
def bidiStub (pn : String) (m : method) : String :=
  "\n// " ++ m.mtd.name ++ " streams outputs and listens to a stream of inputs.\nfunc (s *service) "
    ++ m.mtd.name ++ "(stream " ++ pn ++ "." ++ m.StreamName
    ++ ") error \x7b\n\tfor \x7b\n\t\tinput, err := stream.Recv()\n\t\tif err == io.EOF \x7b\n\t\t\treturn nil\n\t\t\x7d\n\t\tif err != nil \x7b\n\t\t\treturn err\n\t\t\x7d\n\n\t\t// TODO: Do something with input\n\t\t_ = input\n\n\t\t// TODO: Stream some meaningful output\n\t\tif err := stream.Send(&"
    ++ m.TrimmedOutput
    ++ "\x7b\x7d); err != nil \x7b\n\t\t\treturn err\n\t\t\x7d\n\t\x7d\n\n\treturn nil\n\x7d\n\t\t"

/-- The `{{ else }}` branch of the client-streaming arm: the
client-streaming stub (`src/main.go` lines 171-190). -/
def clientStreamStub (pn : String) (m : method) : String :=
  "\n// " ++ m.mtd.name ++ " sends a single output for a streamed input.\nfunc (s *service) "
    ++ m.mtd.name ++ "(stream " ++ pn ++ "." ++ m.StreamName
    ++ ") error \x7b\n\tfor \x7b\n\t\tinput, err := stream.Recv()\n\t\tif err == io.EOF \x7b\n\t\t\t// TODO: Send some meaningful output\n\t\t\treturn stream.SendAndClose(&"
    ++ m.TrimmedOutput
    ++ "\x7b\x7d)\n\t\t\x7d\n\t\tif err != nil \x7b\n\t\t\treturn err\n\t\t\x7d\n\n\t\t// TODO: Do something with the input message\n\t\t_ = input\n\t\x7d\n\n\treturn nil\n\x7d\n\t\t"

/-- The `{{ if .GetServerStreaming }}` branch of the non-client-streaming
arm: the server-streaming stub (`src/main.go` lines 192-207). -/
def serverStreamStub (pn : String) (m : method) : String :=
  "\n// " ++ m.mtd.name ++ " streams output for a single input.\nfunc (s *service) "
    ++ m.mtd.name ++ "(input *" ++ m.TrimmedInput ++ ", stream " ++ pn ++ "." ++ m.StreamName
    ++ ") error \x7b\n\t// TODO: Do something with the input\n\t_ = input\n\n\t// TODO: Stream some meaningful output\n\tfor i := 0; i < 10; i++ \x7b\n\t\tif err := stream.Send(&"
    ++ m.TrimmedOutput
    ++ "\x7b\x7d); err != nil \x7b\n\t\t\treturn err\n\t\t\x7d\n\t\x7d\n\n\treturn nil\n\x7d\n\t\t"

/-- The final `{{ else }}` branch: the unary stub (`src/main.go`
lines 207-216).  It does not reference `{{$.PackageName}}`. -/
def unaryStub (m : method) : String :=
  "\n// " ++ m.mtd.name ++ " sends a single output for a single input.\nfunc (s *service) "
    ++ m.mtd.name ++ "(ctx context.Context, input *" ++ m.TrimmedInput ++ ") (*" ++ m.TrimmedOutput
    ++ ", error) \x7b\n\t// TODO: Do something with the input\n\t_ = input\n\n\t// TODO: Send some meaningful output\n\treturn &"
    ++ m.TrimmedOutput
    ++ "\x7b\x7d, nil\n\x7d\n\t\t"

/-- One iteration of `{{ range .Methods }}` (`src/main.go` lines
146-219): the literal whitespace around the nested `{{ if }}` actions
plus the selected per-shape stub. -/
def renderMethodBlock (pn : String) (m : method) : String :=
  "\n\t"
    ++ (if m.mtd.clientStreaming then
          "\n\t\t" ++ (if m.mtd.serverStreaming then bidiStub pn m else clientStreamStub pn m) ++ "\n\t"
        else
          "\n\t\t" ++ (if m.mtd.serverStreaming then serverStreamStub pn m else unaryStub m) ++ "\n\t")
    ++ "\n\n"

/-- `tmpl.Execute` on one `params` value (`src/main.go` line 75 with the
template of lines 132-220): prelude, one block per method in order, and
the final newline before the closing backtick. -/
def render (p : params) : String :=
  renderPrelude p.ProtoName ++ String.join (p.Methods.map (renderMethodBlock p.PackageName)) ++ "\n"

/-! ## `parseRequest` and `generateResponse` (`src/main.go` lines 44-93) -/

/-- The `method` value built in the inner loop of `parseRequest`
(`src/main.go` lines 55-58). -/
def mkMethod (serviceName : String) (mtd : MethodDescriptorProto) : method :=
  { mtd := mtd, serviceName := serviceName }

/-- The `params` value built for one service (`src/main.go` lines
48-60).  The Go code fills `Methods` by appending one `method` per
`MethodDescriptorProto` in order, which is exactly `List.map`. -/
def mkParams (pf : FileDescriptorProto) (svc : ServiceDescriptorProto) : params :=
  { svc := svc
    ProtoName := pf.name
    PackageName := pf.package
    Methods := svc.method.map (mkMethod svc.name) }

/-- Embeds `parseRequest` (`src/main.go` lines 44-67): nested
`for range` loops appending one `params` per service, in file order
then service order, starting from the empty slice. -/
def parseRequest (req : CodeGeneratorRequest) : List params :=
  req.protoFile.foldl
    (fun ps pf => pf.service.foldl (fun ps svc => ps ++ [mkParams pf svc]) ps) []

/-- Embeds `plugin.CodeGeneratorResponse_File` restricted to the two
fields `src/main.go` lines 86-89 set: `Name` and `Content`. -/
structure CodeGeneratorResponseFile where
  name : String
  content : String
  deriving Repr, DecidableEq

/-- The output file name computed at `src/main.go` line 84:
`strings.ToLower(p.GetName()) + ".go"`.  Since `params` declares no
`GetName` of its own and `ProtoName` is a plain field, `p.GetName()`
resolves to the promoted getter of the embedded
`ServiceDescriptorProto`, i.e. the SERVICE name, not the proto file
name. -/
def fileNameOf (p : params) : String :=
  toLower p.svc.name ++ ".go"

/-- The `CodeGeneratorResponse_File` emitted for one service when
formatting returns the rendered text unchanged (`src/main.go` lines
84-89). -/
def emitOf (p : params) : CodeGeneratorResponseFile :=
  { name := fileNameOf p, content := render p }

/-- Embeds `generateResponse` (`src/main.go` lines 70-93).  The external
`go/format.Source` call (line 79) is abstracted as `fmtFn`; a `none`
result models a formatting error, on which the Go code calls
`log.Fatal` (line 81), aborting the whole request with no response —
modelled by propagating `none` for the entire list. -/
def generateResponse (fmtFn : String → Option String) :
    List params → Option (List CodeGeneratorResponseFile)
  | [] => some []
  | p :: rest =>
    match fmtFn (render p) with
    | none => none
    | some fmted =>
      match generateResponse fmtFn rest with
      | none => none
      | some files => some ({ name := fileNameOf p, content := fmted } :: files)

/-- The list of names of a list of response files. -/
def fileNames (files : List CodeGeneratorResponseFile) : List String :=
  files.map CodeGeneratorResponseFile.name

/-- The list of per-service method counts of a list of `params`. -/
def methodCounts (ps : List params) : List Nat :=
  ps.map (fun p => p.Methods.length)

/-! ## Operational semantics of the emitted method bodies

The template emits fixed Go method bodies per shape; the following gives
those bodies an operational semantics.  A gRPC stream is modelled by
oracles: `send i` is the error result of the `i`-th `Send` call (`none`
= success; every `Send` in the emitted code is passed the zero-valued
output, so only the result matters), and a list of `RecvRes` values is
the successive results of `Recv` calls (`.val` = a message, which every
emitted body ignores; `.eof` = `io.EOF`; `.err e` = any other error).
A body that loops past the modelled `Recv` results is reported as
`none` (the emitted `for` loop would still be waiting on `Recv`). -/

/-- Result of one `stream.Recv()` call in the emitted code. -/
inductive RecvRes (ε : Type) where
  | val
  | eof
  | err (e : ε)
  deriving Repr, DecidableEq

/-- The `for i := 0; i < 10; i++` send loop of the server-streaming stub
(`src/main.go` lines 199-203): `i` is the next send index, `fuel` the
remaining iterations (`10 - i`).  Returns the body's returned error
(`none` for the final `return nil`) and the number of `Send` calls
performed. -/
def serverStreamingLoop {ε : Type} (send : Nat → Option ε) :
    Nat → Nat → Option ε × Nat
  | i, 0 => (none, i)
  | i, fuel + 1 =>
    match send i with
    | some e => (some e, i + 1)
    | none => serverStreamingLoop send (i + 1) fuel

/-- The whole server-streaming stub body (`src/main.go` lines 194-206):
run the send loop from `i = 0` with 10 iterations. -/
def serverStreamingBody {ε : Type} (send : Nat → Option ε) : Option ε × Nat :=
  serverStreamingLoop send 0 10

/-- The client-streaming stub body (`src/main.go` lines 173-189):
`for { Recv; if io.EOF { return SendAndClose(zero) }; if err { return err };
ignore input }`.  `sendAndClose` is the result of the single
`SendAndClose` call.  Returns the returned error and the number of
`SendAndClose` calls performed. -/
def clientStreamingBody {ε : Type} (sendAndClose : Option ε) :
    List (RecvRes ε) → Option (Option ε × Nat)
  | [] => none
  | .eof :: _ => some (sendAndClose, 1)
  | .err e :: _ => some (some e, 0)
  | .val :: rest => clientStreamingBody sendAndClose rest

/-- The bidirectional-streaming stub body's loop (`src/main.go` lines
151-167): `for { Recv; if io.EOF { return nil }; if err { return err };
ignore input; if Send(zero) fails { return err } }`.  `sent` is the
number of `Send` calls performed so far. -/
def bidiLoop {ε : Type} (send : Nat → Option ε) :
    List (RecvRes ε) → Nat → Option (Option ε × Nat)
  | [], _ => none
  | .eof :: _, sent => some (none, sent)
  | .err e :: _, sent => some (some e, sent)
  | .val :: rest, sent =>
    match send sent with
    | some e => some (some e, sent + 1)
    | none => bidiLoop send rest (sent + 1)

/-- The whole bidirectional-streaming stub body (`src/main.go` lines
150-170): run the loop with no sends performed yet. -/
def bidiStreamingBody {ε : Type} (send : Nat → Option ε)
    (recvs : List (RecvRes ε)) : Option (Option ε × Nat) :=
  bidiLoop send recvs 0

/-! ## A model of the formatting step -/

/-- The `{` character, written by code point. -/
def lbrace : Char := Char.ofNat 123

/-- The `}` character, written by code point. -/
def rbrace : Char := Char.ofNat 125

/-- The `(` character, written by code point. -/
def lparen : Char := Char.ofNat 40

/-- The `)` character, written by code point. -/
def rparen : Char := Char.ofNat 41

/-- Modelled from the spec: `go/format.Source` (`src/main.go` line 79)
is Go-toolchain code external to this repository; per the spec it
"fails (the rendered text is not syntactically valid)".  Abstracted as
a decidable syntactic sanity check: the text contains a `package `
clause and its brace and parenthesis counts balance. -/
def goFormatOK (s : String) : Bool :=
  decide (("package ").data <:+: s.data)
    && s.data.count lbrace == s.data.count rbrace
    && s.data.count lparen == s.data.count rparen

/-- The formatter used to instantiate `generateResponse` with the
spec-modelled check: returns the text unchanged when `goFormatOK`
accepts it (`gofmt` is a pure function of the text), fails otherwise. -/
def goFormatFn (s : String) : Option String :=
  if goFormatOK s then some s else none

/-- A formatter that rejects every input (for exercising the fatal
path). -/
def rejectFmt : String → Option String :=
  fun _ => none

/-! ## Decomposition of a streaming method block around `{{$.PackageName}}`

`streamBefore`/`streamAfter` split the per-method block of a streaming
method at its single `{{$.PackageName}}` interpolation point, using the
same literal template segments as the stub definitions above.  They are
used to state that the package name occurs in a method block only as the
qualifier of the synthesized stream type. -/

/-- The text of a streaming method's block before the
`{{$.PackageName}}` interpolation. -/
def streamBefore (m : method) : String :=
  "\n\t" ++ "\n\t\t" ++
    (if m.mtd.clientStreaming then
      if m.mtd.serverStreaming then
        "\n// " ++ m.mtd.name ++ " streams outputs and listens to a stream of inputs.\nfunc (s *service) "
          ++ m.mtd.name ++ "(stream "
      else
        "\n// " ++ m.mtd.name ++ " sends a single output for a streamed input.\nfunc (s *service) "
          ++ m.mtd.name ++ "(stream "
    else
      "\n// " ++ m.mtd.name ++ " streams output for a single input.\nfunc (s *service) "
        ++ m.mtd.name ++ "(input *" ++ m.TrimmedInput ++ ", stream ")

/-- The text of a streaming method's block after the
`{{$.PackageName}}` interpolation: the dot, the synthesized stream-type
name, and the rest of the stub. -/
def streamAfter (m : method) : String :=
  "." ++ m.StreamName ++
    (if m.mtd.clientStreaming then
      if m.mtd.serverStreaming then
        ") error \x7b\n\tfor \x7b\n\t\tinput, err := stream.Recv()\n\t\tif err == io.EOF \x7b\n\t\t\treturn nil\n\t\t\x7d\n\t\tif err != nil \x7b\n\t\t\treturn err\n\t\t\x7d\n\n\t\t// TODO: Do something with input\n\t\t_ = input\n\n\t\t// TODO: Stream some meaningful output\n\t\tif err := stream.Send(&"
          ++ m.TrimmedOutput
          ++ "\x7b\x7d); err != nil \x7b\n\t\t\treturn err\n\t\t\x7d\n\t\x7d\n\n\treturn nil\n\x7d\n\t\t"
      else
        ") error \x7b\n\tfor \x7b\n\t\tinput, err := stream.Recv()\n\t\tif err == io.EOF \x7b\n\t\t\t// TODO: Send some meaningful output\n\t\t\treturn stream.SendAndClose(&"
          ++ m.TrimmedOutput
          ++ "\x7b\x7d)\n\t\t\x7d\n\t\tif err != nil \x7b\n\t\t\treturn err\n\t\t\x7d\n\n\t\t// TODO: Do something with the input message\n\t\t_ = input\n\t\x7d\n\n\treturn nil\n\x7d\n\t\t"
    else
        ") error \x7b\n\t// TODO: Do something with the input\n\t_ = input\n\n\t// TODO: Stream some meaningful output\n\tfor i := 0; i < 10; i++ \x7b\n\t\tif err := stream.Send(&"
          ++ m.TrimmedOutput
          ++ "\x7b\x7d); err != nil \x7b\n\t\t\treturn err\n\t\t\x7d\n\t\x7d\n\n\treturn nil\n\x7d\n\t\t")
    ++ "\n\t" ++ "\n\n"

/-- The substring whose occurrences count the emitted `service` struct
declaration. -/
def structDecl : String := "type service struct\x7b\x7d"

/-- Number of (possibly overlapping) occurrences of `pat` in `s`. -/
def countSubstr (pat s : String) : Nat :=
  (s.data.tails.filter (fun t => pat.data.isPrefixOf t)).length

/-! ## Concrete request data used by witnesses and counterexamples -/

/-- A service named `Bar` with no methods. -/
def svcBar : ServiceDescriptorProto := { name := "Bar", method := [] }

/-- A proto file named `Foo.proto` with one service `Bar` and no
methods. -/
def fooFile : FileDescriptorProto :=
  { name := "Foo.proto", package := "pkg", service := [svcBar] }

/-- A request carrying only `fooFile`. -/
def fooReq : CodeGeneratorRequest := { protoFile := [fooFile] }

/-- A unary method descriptor (both streaming flags false). -/
def mUnary : MethodDescriptorProto :=
  { name := "Get", inputType := ".pkg.Req", outputType := ".pkg.Resp"
    clientStreaming := false, serverStreaming := false }

/-- A server-streaming method descriptor. -/
def mServer : MethodDescriptorProto :=
  { name := "Watch", inputType := ".pkg.Req", outputType := ".pkg.Resp"
    clientStreaming := false, serverStreaming := true }

/-- First proto file of the two-file request: one service, two
methods. -/
def fileA : FileDescriptorProto :=
  { name := "a.proto", package := "pkga"
    service := [{ name := "SvcA", method := [mUnary, mServer] }] }

/-- Second proto file of the two-file request: one service, two
methods. -/
def fileB : FileDescriptorProto :=
  { name := "b.proto", package := "pkgb"
    service := [{ name := "SvcB", method := [mUnary, mServer] }] }

/-- A request with 2 proto files, each with 1 service of 2 methods. -/
def req2 : CodeGeneratorRequest := { protoFile := [fileA, fileB] }

/-- The `params` of `fileA`'s service, used to exercise the fatal
path. -/
def pFatal : params := mkParams fileA { name := "SvcA", method := [mUnary, mServer] }

/-- A wrapped unary method owned by service `SvcA`. -/
def mUw : method := mkMethod "SvcA" mUnary

/-- A wrapped server-streaming method owned by service `SvcA`. -/
def mSw : method := mkMethod "SvcA" mServer

/-- A service rendering input with package name `alpha` and one unary
method. -/
def pAlpha : params :=
  { svc := { name := "SvcA", method := [mUnary] }
    ProtoName := "a.proto", PackageName := "alpha", Methods := [mUw] }

/-- The same rendering input as `pAlpha` except for the package name. -/
def pBeta : params :=
  { svc := { name := "SvcA", method := [mUnary] }
    ProtoName := "a.proto", PackageName := "beta", Methods := [mUw] }

/-- The per-shape stub dispatch made explicit: which stub the template's
nested conditionals select for each `RPCShape`. -/
def renderShapeStub (pn : String) (m : method) : RPCShape → String
  | .Unary => unaryStub m
  | .ServerStreaming => serverStreamStub pn m
  | .ClientStreaming => clientStreamStub pn m
  | .BidiStreaming => bidiStub pn m

/-- The fixed template text strictly after the `package main` clause:
imports and the empty `service` struct. -/
def afterPackage : String :=
  "\n\nimport (\n\t\"io\"\n\n\t\"golang.org/x/net/context\"\n)\n\ntype service struct\x7b\x7d\n\n"

/-- A send oracle on which every `Send` succeeds. -/
def sendOk : Nat → Option Nat := fun _ => none

/-- A send oracle whose fourth `Send` (index 3) fails with error 0. -/
def sendFail3 : Nat → Option Nat := fun i => if i = 3 then some 0 else none

/-- A send oracle on which every `Send` fails with error 7. -/
def sendFail : Nat → Option Nat := fun _ => some 7

/-! ## Helper lemmas -/

/-- `String.append` acts as list append on the underlying character
data. -/
theorem data_append : ∀ a b : String, (a ++ b).data = a.data ++ b.data
  | ⟨_⟩, ⟨_⟩ => rfl

/-- Characterization of `trimPrefix · "."` by the first character. -/
theorem trim_dot (s : String) :
    trimPrefix s "." =
      match s.data with
      | [] => s
      | c :: rest => if c = '.' then String.mk rest else s := by
  rcases s with ⟨l⟩
  match l with
  | [] => simp [trimPrefix, List.isPrefixOf]
  | c :: rest =>
    by_cases hc : c = '.'
    · subst hc
      simp [trimPrefix, List.isPrefixOf]
    · simp [trimPrefix, List.isPrefixOf, hc, Ne.symm hc]

/-- Folding slice appends of single elements is `List.map`. -/
theorem foldl_append_singleton {α β : Type} (f : α → β) :
    ∀ (l : List α) (acc : List β),
      l.foldl (fun ps x => ps ++ [f x]) acc = acc ++ l.map f := by
  intro l
  induction l with
  | nil => intro acc; simp
  | cons x xs ih => intro acc; simp [ih]

/-- Folding slice appends of whole lists is `List.flatMap`. -/
theorem foldl_append_flat {α β : Type} (h : α → List β) :
    ∀ (l : List α) (acc : List β),
      l.foldl (fun ps x => ps ++ h x) acc = acc ++ l.flatMap h := by
  intro l
  induction l with
  | nil => intro acc; simp
  | cons x xs ih => intro acc; simp [ih]

/-- `parseRequest` flattens the request: one `params` per service, in
file order then service order. -/
theorem parseRequest_eq (req : CodeGeneratorRequest) :
    parseRequest req = req.protoFile.flatMap (fun pf => pf.service.map (mkParams pf)) := by
  have hinner : ∀ (pf : FileDescriptorProto) (acc : List params),
      pf.service.foldl (fun ps svc => ps ++ [mkParams pf svc]) acc =
        acc ++ pf.service.map (mkParams pf) := by
    intro pf acc
    exact foldl_append_singleton (mkParams pf) pf.service acc
  unfold parseRequest
  calc req.protoFile.foldl
        (fun ps pf => pf.service.foldl (fun ps svc => ps ++ [mkParams pf svc]) ps) []
      = req.protoFile.foldl (fun ps pf => ps ++ pf.service.map (mkParams pf)) [] := by
        congr 1
        funext ps pf
        exact hinner pf ps
    _ = [] ++ req.protoFile.flatMap (fun pf => pf.service.map (mkParams pf)) :=
        foldl_append_flat _ req.protoFile []
    _ = req.protoFile.flatMap (fun pf => pf.service.map (mkParams pf)) := by simp

/-- When the formatter accepts every text unchanged, `generateResponse`
emits exactly one file per service, in order. -/
theorem generateResponse_all_some (fmtFn : String → Option String)
    (h : ∀ s, fmtFn s = some s) :
    ∀ ps : List params, generateResponse fmtFn ps = some (ps.map emitOf) := by
  intro ps
  induction ps with
  | nil => rfl
  | cons p rest ih => simp [generateResponse, h, ih, emitOf]

/-- The names of `generateResponse`'s output, whenever it succeeds, are
the lower-cased service names with `".go"` appended, in order. -/
theorem generateResponse_names (fmtFn : String → Option String) :
    ∀ (ps : List params) (fs : List CodeGeneratorResponseFile),
      generateResponse fmtFn ps = some fs → fileNames fs = ps.map fileNameOf := by
  intro ps
  induction ps with
  | nil =>
    intro fs h
    simp [generateResponse] at h
    subst h
    rfl
  | cons p rest ih =>
    intro fs h
    unfold generateResponse at h
    match hf : fmtFn (render p) with
    | none => rw [hf] at h; exact absurd h (by simp)
    | some fmted =>
      rw [hf] at h
      match hr : generateResponse fmtFn rest with
      | none => rw [hr] at h; exact absurd h (by simp)
      | some files =>
        rw [hr] at h
        simp at h
        subst h
        simp [fileNames, List.map] at ih ⊢
        exact ih files hr

/-- In the server-streaming send loop, if every send in range succeeds,
the loop performs all iterations and returns `nil`. -/
theorem ssLoop_all_none {ε : Type} (send : Nat → Option ε) :
    ∀ fuel i, (∀ j, i ≤ j → j < i + fuel → send j = none) →
      serverStreamingLoop send i fuel = (none, i + fuel) := by
  intro fuel
  induction fuel with
  | zero => intro i _; simp [serverStreamingLoop]
  | succ f ih =>
    intro i h
    have hi : send i = none := h i le_rfl (by omega)
    simp [serverStreamingLoop, hi]
    have := ih (i + 1) (fun j h1 h2 => h j (by omega) (by omega))
    rw [this]
    congr 1
    omega

/-- In the server-streaming send loop, the first failing send is
returned at once, after exactly that send. -/
theorem ssLoop_first_err {ε : Type} (send : Nat → Option ε) :
    ∀ fuel i k e, i ≤ k → k < i + fuel →
      (∀ j, i ≤ j → j < k → send j = none) → send k = some e →
      serverStreamingLoop send i fuel = (some e, k + 1) := by
  intro fuel
  induction fuel with
  | zero => intro i k e h1 h2; omega
  | succ f ih =>
    intro i k e h1 h2 hall hk
    by_cases hik : i = k
    · subst hik
      simp [serverStreamingLoop, hk]
    · have hi : send i = none := hall i le_rfl (by omega)
      simp [serverStreamingLoop, hi]
      exact ih (i + 1) k e (by omega) (by omega) (fun j ha hb => hall j (by omega) hb) hk

/-- The client-streaming body ignores received values. -/
theorem csBody_vals {ε : Type} (sc : Option ε) (k : Nat) (rest : List (RecvRes ε)) :
    clientStreamingBody sc (List.replicate k .val ++ rest) =
      clientStreamingBody sc rest := by
  induction k with
  | zero => rfl
  | succ n ih => simpa [List.replicate_succ, clientStreamingBody] using ih

/-- The bidi loop sends once per received value while sends succeed. -/
theorem bidiLoop_vals {ε : Type} (send : Nat → Option ε) :
    ∀ k s rest, (∀ j, s ≤ j → j < s + k → send j = none) →
      bidiLoop send (List.replicate k .val ++ rest) s = bidiLoop send rest (s + k) := by
  intro k
  induction k with
  | zero => intro s rest _; simp
  | succ n ih =>
    intro s rest h
    have hs : send s = none := h s le_rfl (by omega)
    rw [List.replicate_succ]
    simp only [List.cons_append, bidiLoop, hs]
    have := ih (s + 1) rest (fun j h1 h2 => h j (by omega) (by omega))
    rw [List.append_eq, this]
    congr 1
    omega

/-- The bidi loop returns the first failing send at once, after exactly
that send. -/
theorem bidiLoop_send_fail {ε : Type} (send : Nat → Option ε) :
    ∀ j s k e rest, j < k →
      (∀ i, s ≤ i → i < s + j → send i = none) → send (s + j) = some e →
      bidiLoop send (List.replicate k .val ++ rest) s = some (some e, s + j + 1) := by
  intro j
  induction j with
  | zero =>
    intro s k e rest hk hnone hs
    match k, hk with
    | n + 1, _ =>
      rw [List.replicate_succ]
      simp at hs
      simp [bidiLoop, hs]
  | succ m ih =>
    intro s k e rest hk hnone hs
    match k, hk with
    | n + 1, _ =>
      rw [List.replicate_succ]
      have h0 : send s = none := hnone s le_rfl (by omega)
      simp only [List.cons_append, bidiLoop, h0]
      have := ih (s + 1) n e rest (by omega) (fun i h1 h2 => hnone i (by omega) (by omega))
        (by rw [show s + 1 + m = s + (m + 1) by omega]; exact hs)
      rw [List.append_eq, this]
      congr 2
      omega

/-- A unary method's rendered block does not depend on the package
name: the `{{$.PackageName}}` interpolation occurs only in the three
streaming stubs. -/
theorem renderMethodBlock_unary_pn (pn pn2 : String) (m : method)
    (hc : m.mtd.clientStreaming = false) (hs : m.mtd.serverStreaming = false) :
    renderMethodBlock pn m = renderMethodBlock pn2 m := by
  simp [renderMethodBlock, hc, hs]

/-! ## Claim theorems -/

/-- C2, counterexample: stripping the qualifier separator is NOT
idempotent on every string — on `"..a"`, one strip yields `".a"` and a
second strip changes it to `"a"`. -/
theorem C2_counterexample :
    trimPrefix (trimPrefix "..a" ".") "." ≠ trimPrefix "..a" "." := by
  decide

/-- C2, amended: type-name normalization (stripping the leading `"."`
qualifier separator as in `TrimmedInput`/`TrimmedOutput`) is idempotent
on every string that does not begin with two separators. -/
theorem C2_theorem (s : String)
    (h : (("..").data).isPrefixOf s.data = false) :
    trimPrefix (trimPrefix s ".") "." = trimPrefix s "." := by
  rcases s with ⟨l⟩
  match l with
  | [] => simp [trim_dot]
  | c :: rest =>
    by_cases hc : c = '.'
    · subst hc
      match rest with
      | [] => simp [trim_dot]
      | c2 :: rest2 =>
        by_cases hc2 : c2 = '.'
        · subst hc2
          simp [List.isPrefixOf] at h
        · simp [trim_dot, hc2]
    · simp [trim_dot, hc]

/-- C2, witness: the fully qualified name `".pkg.Req"` does not start
with two separators, and stripping it twice equals stripping once. -/
theorem C2_witness :
    (("..").data).isPrefixOf ((".pkg.Req" : String).data) = false ∧
      trimPrefix (trimPrefix ".pkg.Req" ".") "." = trimPrefix ".pkg.Req" "." :=
  ⟨by decide, C2_theorem ".pkg.Req" (by decide)⟩

/-- C3: the shape classification is a total deterministic function of
the two streaming flags — each of the four boolean pairs maps to
exactly the stated shape, every pair is handled with no error path, and
the template's nested-conditional dispatch renders precisely the stub
selected by that classification. -/
theorem C3_theorem :
    (classify false false = RPCShape.Unary ∧
     classify false true = RPCShape.ServerStreaming ∧
     classify true false = RPCShape.ClientStreaming ∧
     classify true true = RPCShape.BidiStreaming) ∧
    (∀ cs ss : Bool,
      classify cs ss = RPCShape.Unary ∨ classify cs ss = RPCShape.ServerStreaming ∨
      classify cs ss = RPCShape.ClientStreaming ∨ classify cs ss = RPCShape.BidiStreaming) ∧
    (∀ (pn : String) (m : method),
      renderMethodBlock pn m =
        "\n\t" ++ ("\n\t\t"
            ++ renderShapeStub pn m (classify m.mtd.clientStreaming m.mtd.serverStreaming)
            ++ "\n\t") ++ "\n\n") := by
  refine ⟨by decide, by decide, ?_⟩
  intro pn m
  cases hc : m.mtd.clientStreaming <;> cases hs : m.mtd.serverStreaming <;>
    simp [renderMethodBlock, renderShapeStub, classify, hc, hs]

/-- C4: the server-streaming stub body performs exactly 10 sends of the
zero-valued output when every send succeeds, and returns the first
failing send's error immediately, performing no send after it. -/
theorem C4_theorem {ε : Type} (send : Nat → Option ε) :
    ((∀ i, i < 10 → send i = none) → serverStreamingBody send = (none, 10)) ∧
    (∀ k e, k < 10 → (∀ j, j < k → send j = none) → send k = some e →
      serverStreamingBody send = (some e, k + 1)) := by
  constructor
  · intro h
    simpa [serverStreamingBody] using
      ssLoop_all_none send 10 0 (fun j _ hj => h j (by omega))
  · intro k e hk hall hke
    simpa [serverStreamingBody] using
      ssLoop_first_err send 10 0 k e (by omega) (by omega)
        (fun j _ hj => hall j hj) hke

/-- C4, witness: with all sends succeeding the body sends 10 times and
returns `nil`; with the send at index 3 failing it returns that error
after exactly 4 sends. -/
theorem C4_witness :
    serverStreamingBody sendOk = (none, 10) ∧
      serverStreamingBody sendFail3 = (some 0, 4) :=
  ⟨(C4_theorem sendOk).1 (fun _ _ => rfl),
   (C4_theorem sendFail3).2 3 0 (by omega)
     (fun j hj => by simp [sendFail3]; omega) rfl⟩

/-- C5: the client-streaming stub body ignores any number of received
values; on end-of-input it performs exactly one `SendAndClose` of the
zero-valued output and returns its result; on any other receive error
it returns that error immediately with no `SendAndClose` performed. -/
theorem C5_theorem {ε : Type} (sc : Option ε) (k : Nat) (e : ε)
    (rest : List (RecvRes ε)) :
    clientStreamingBody sc (List.replicate k .val ++ [.eof]) = some (sc, 1) ∧
    clientStreamingBody sc (List.replicate k .val ++ .err e :: rest) =
      some (some e, 0) := by
  constructor
  · rw [csBody_vals]; rfl
  · rw [csBody_vals]; rfl

/-- C6: the bidi-streaming stub body sends exactly one zero-valued
output per successfully received value; on end-of-input it returns
`nil` with no extra send; it returns the first receive error or the
first send error immediately, halting the loop. -/
theorem C6_theorem {ε : Type} (send : Nat → Option ε) (k j : Nat) (e e2 : ε)
    (rest : List (RecvRes ε)) :
    ((∀ i, i < k → send i = none) →
      bidiStreamingBody send (List.replicate k .val ++ .eof :: rest) = some (none, k)) ∧
    ((∀ i, i < k → send i = none) →
      bidiStreamingBody send (List.replicate k .val ++ .err e :: rest) = some (some e, k)) ∧
    (j < k → (∀ i, i < j → send i = none) → send j = some e2 →
      bidiStreamingBody send (List.replicate k .val ++ rest) = some (some e2, j + 1)) := by
  refine ⟨?_, ?_, ?_⟩
  · intro h
    have := bidiLoop_vals send k 0 (.eof :: rest) (fun i _ hi => h i (by omega))
    simpa [bidiStreamingBody, bidiLoop] using this
  · intro h
    have := bidiLoop_vals send k 0 (.err e :: rest) (fun i _ hi => h i (by omega))
    simpa [bidiStreamingBody, bidiLoop] using this
  · intro hjk hall hj
    have := bidiLoop_send_fail send j 0 k e2 rest hjk
      (fun i _ hi => hall i (by omega)) (by simpa using hj)
    simpa [bidiStreamingBody] using this

/-- C6, witness: two received values with all sends succeeding give two
sends then a clean end-of-input return; a receive error after two
values is returned with two sends done; a failing first send is
returned immediately after that one send. -/
theorem C6_witness :
    bidiStreamingBody sendOk (List.replicate 2 .val ++ .eof :: []) = some (none, 2) ∧
    bidiStreamingBody sendOk (List.replicate 2 .val ++ .err 5 :: []) = some (some 5, 2) ∧
    bidiStreamingBody sendFail (List.replicate 2 .val ++ .eof :: []) = some (some 7, 1) :=
  ⟨(C6_theorem sendOk 2 0 5 5 []).1 (fun _ _ => rfl),
   (C6_theorem sendOk 2 0 5 5 []).2.1 (fun _ _ => rfl),
   (C6_theorem sendFail 2 0 5 7 (.eof :: [])).2.2 (by omega) (fun i hi => by omega) rfl⟩

/-- C1, counterexample: on a request whose proto file is named
`"Foo.proto"` and whose service is named `"Bar"`, the pipeline emits a
file named `"bar.go"` — the lower-cased SERVICE name with `".go"`
appended — not `"foo.proto.go"` as the claim requires. -/
theorem C1_counterexample :
    (generateResponse Option.some (parseRequest fooReq)).map fileNames =
        some ["bar.go"] ∧
      ("bar.go" : String) ≠ "foo.proto.go" := by
  constructor
  · rfl
  · decide

/-- C1, amended: whenever `generateResponse` succeeds, the emitted
files' names are, in order, the lower-cased service name of each
service with the fixed extension `".go"` appended (the proto file's
source name plays no part in the output name). -/
theorem C1_theorem (fmtFn : String → Option String) (ps : List params)
    (fs : List CodeGeneratorResponseFile)
    (h : generateResponse fmtFn ps = some fs) :
    fileNames fs = ps.map fileNameOf :=
  generateResponse_names fmtFn ps fs h

/-- C1, witness: the amended naming rule applied to the `Foo.proto` /
`Bar` request. -/
theorem C1_witness :
    fileNames ((parseRequest fooReq).map emitOf) =
      (parseRequest fooReq).map fileNameOf :=
  C1_theorem Option.some (parseRequest fooReq) ((parseRequest fooReq).map emitOf)
    (by rfl)

/-- C7: the pipeline flattens the request into one `params` per service
in file order then service order; with the formatter accepting every
text, it emits exactly one file per service in that order; the number
of emitted entries is the total service count; each rendered unit is
the prelude followed by exactly one method block per method descriptor
in method order; and each service's wrapped method list preserves the
descriptor's method order. -/
theorem C7_theorem (req : CodeGeneratorRequest) (fmtFn : String → Option String)
    (hfmt : ∀ s, fmtFn s = some s) :
    parseRequest req = req.protoFile.flatMap (fun pf => pf.service.map (mkParams pf)) ∧
    generateResponse fmtFn (parseRequest req) = some ((parseRequest req).map emitOf) ∧
    (parseRequest req).length = (req.protoFile.map (fun pf => pf.service.length)).sum ∧
    (∀ p : params, render p =
      renderPrelude p.ProtoName ++
        String.join (p.Methods.map (renderMethodBlock p.PackageName)) ++ "\n") ∧
    (∀ (pf : FileDescriptorProto) (svc : ServiceDescriptorProto),
      (mkParams pf svc).Methods = svc.method.map (mkMethod svc.name)) := by
  refine ⟨parseRequest_eq req, generateResponse_all_some fmtFn hfmt _, ?_, ?_, ?_⟩
  · rw [parseRequest_eq req, List.length_flatMap]
    simp [Function.comp_def, List.length_map]
  · intro p; rfl
  · intro pf svc; rfl

/-- C7, witness: the two-file request (each file one service of two
methods) yields exactly two files in file order, and each service
carries exactly two methods. -/
theorem C7_witness :
    generateResponse Option.some (parseRequest req2) =
        some ((parseRequest req2).map emitOf) ∧
      methodCounts (parseRequest req2) = [2, 2] :=
  ⟨(C7_theorem req2 Option.some (fun _ => rfl)).2.1, by rfl⟩

/-- C8: if the formatting step rejects the rendered text of any service
in the list, the whole request fails — `generateResponse` produces no
file collection at all. -/
theorem C8_theorem (fmtFn : String → Option String) (ps : List params)
    (p : params) (hp : p ∈ ps) (hfail : fmtFn (render p) = none) :
    generateResponse fmtFn ps = none := by
  induction ps with
  | nil => cases hp
  | cons q rest ih =>
    match hq : fmtFn (render q) with
    | none => simp [generateResponse, hq]
    | some fmted =>
      rcases List.mem_cons.mp hp with hpq | hmem
      · subst hpq
        rw [hq] at hfail
        cases hfail
      · simp [generateResponse, hq, ih hmem]

/-- C8, witness: with a formatter that rejects its input, the two-file
request produces no output collection. -/
theorem C8_witness :
    generateResponse rejectFmt (parseRequest req2) = none :=
  C8_theorem rejectFmt (parseRequest req2) pFatal (by decide) rfl

/-- C9: every rendered unit is the fixed prelude (header comment with
the source file name, then the `package main` clause, imports, and a
single empty `type service struct{}` declaration) followed by the
method blocks; the rendered unit of a service with only unary methods
is independent of the descriptor's package name; and in a streaming
method's block the package name occurs exactly as the qualifier of the
synthesized stream-type reference. -/
theorem C9_theorem :
    (∀ p : params, render p =
      renderPrelude p.ProtoName ++
        String.join (p.Methods.map (renderMethodBlock p.PackageName)) ++ "\n") ∧
    preludeTail = "\n\n" ++ "package main" ++ afterPackage ∧
    countSubstr structDecl preludeTail = 1 ∧
    countSubstr "package main" preludeTail = 1 ∧
    (∀ p q : params, p.ProtoName = q.ProtoName → p.Methods = q.Methods →
      (∀ m ∈ p.Methods, m.mtd.clientStreaming = false ∧ m.mtd.serverStreaming = false) →
      render p = render q) ∧
    (∀ (pn : String) (m : method),
      m.mtd.clientStreaming = true ∨ m.mtd.serverStreaming = true →
      renderMethodBlock pn m = streamBefore m ++ (pn ++ streamAfter m)) := by
  refine ⟨fun p => rfl, by decide, by decide, by decide, ?_, ?_⟩
  · intro p q h1 h2 h3
    unfold render
    rw [h1, h2]
    have hmap : List.map (renderMethodBlock p.PackageName) q.Methods =
        List.map (renderMethodBlock q.PackageName) q.Methods := by
      apply List.map_congr_left
      intro m hm
      have hflags := h3 m (by rw [h2]; exact hm)
      exact renderMethodBlock_unary_pn p.PackageName q.PackageName m hflags.1 hflags.2
    rw [hmap]
  · intro pn m hstream
    apply String.ext
    cases hc : m.mtd.clientStreaming <;> cases hs : m.mtd.serverStreaming
    · rw [hc, hs] at hstream
      rcases hstream with h | h <;> cases h
    · simp only [renderMethodBlock, streamBefore, streamAfter, serverStreamStub, hc, hs,
        Bool.false_eq_true, if_neg, if_pos, ite_true, ite_false, data_append,
        List.append_assoc]
    · simp only [renderMethodBlock, streamBefore, streamAfter, clientStreamStub, hc, hs,
        Bool.false_eq_true, if_neg, if_pos, ite_true, ite_false, data_append,
        List.append_assoc]
    · simp only [renderMethodBlock, streamBefore, streamAfter, bidiStub, hc, hs,
        Bool.false_eq_true, if_neg, if_pos, ite_true, ite_false, data_append,
        List.append_assoc]

/-- C9, witness: two rendering inputs that differ only in package name
and carry one unary method render identically, and a server-streaming
method's block factors around the package name at the stream-type
qualifier. -/
theorem C9_witness :
    render pAlpha = render pBeta ∧
      renderMethodBlock "alpha" mSw = streamBefore mSw ++ ("alpha" ++ streamAfter mSw) :=
  ⟨C9_theorem.2.2.2.2.1 pAlpha pBeta rfl rfl (by decide),
   C9_theorem.2.2.2.2.2 "alpha" mSw (Or.inr rfl)⟩

/-- C10: a service with zero methods still produces a generated file:
the rendered content is exactly the prelude (header comment, package
clause, imports, empty `service` declaration) and the final newline,
it passes the (spec-modelled) formatting check, and `generateResponse`
emits for it exactly one file named after the lower-cased service
name. -/
theorem C10_theorem (pf : FileDescriptorProto) (svc : ServiceDescriptorProto)
    (hm : svc.method = [])
    (h1 : pf.name.data.count lbrace = 0) (h2 : pf.name.data.count rbrace = 0)
    (h3 : pf.name.data.count lparen = 0) (h4 : pf.name.data.count rparen = 0) :
    render (mkParams pf svc) = renderPrelude pf.name ++ "\n" ∧
    goFormatOK (renderPrelude pf.name ++ "\n") = true ∧
    generateResponse goFormatFn [mkParams pf svc] =
      some [{ name := toLower svc.name ++ ".go"
              content := renderPrelude pf.name ++ "\n" }] := by
  have hrender : render (mkParams pf svc) = renderPrelude pf.name ++ "\n" := by
    apply String.ext
    simp [render, mkParams, hm, data_append]
  have hdata : (renderPrelude pf.name ++ "\n").data =
      (preludeHead.data ++ pf.name.data) ++ preludeTail.data ++ ("\n" : String).data := by
    simp [renderPrelude, data_append]
  have hfmt : goFormatOK (renderPrelude pf.name ++ "\n") = true := by
    unfold goFormatOK
    rw [Bool.and_eq_true, Bool.and_eq_true]
    refine ⟨⟨?_, ?_⟩, ?_⟩
    · rw [decide_eq_true_eq, hdata]
      exact List.IsInfix.trans (by decide) (List.infix_append _ _ _)
    · rw [beq_iff_eq, hdata]
      simp only [List.count_append, h1, h2]
      decide
    · rw [beq_iff_eq, hdata]
      simp only [List.count_append, h3, h4]
      decide
  refine ⟨hrender, hfmt, ?_⟩
  simp only [generateResponse, hrender, goFormatFn, hfmt, if_true]
  simp [fileNameOf, mkParams]

/-- C10, witness: the zero-method service `Bar` of `Foo.proto` renders
to the bare prelude, passes the formatting check, and yields exactly
one generated file. -/
theorem C10_witness :
    svcBar.method = [] ∧
    render (mkParams fooFile svcBar) = renderPrelude "Foo.proto" ++ "\n" ∧
    goFormatOK (renderPrelude "Foo.proto" ++ "\n") = true ∧
    generateResponse goFormatFn [mkParams fooFile svcBar] =
      some [{ name := toLower "Bar" ++ ".go"
              content := renderPrelude "Foo.proto" ++ "\n" }] := by
  refine ⟨rfl, ?_⟩
  exact C10_theorem fooFile svcBar rfl (by decide) (by decide) (by decide) (by decide)

end GrpcGoService
